import Mathlib

/-!
Verification of the association-aware persistence engine of the
rest-sequelize repository (src/lib/rest-service.js together with the
payload normalisation of src/lib/rest-adapter.js).

The JavaScript code is shallowly embedded: JSON-like payload values become
the inductive type `JsVal`, the lodash and JavaScript coercion helpers the
code relies on (`_.isEmpty`, `isNaN`, truthiness) are translated faithfully
from their semantics in the lodash 3 line the repository uses, and the
sequelize store the service drives is given an explicit operational model
(`Store`, `Db`) that distinguishes writes issued with the open transaction
handle from writes issued without it, so that rollback behaviour is
expressible.  Every definition follows the corresponding source function;
section comments cite the file and line of the translated code.
-/

/-- JSON-like payload and attribute values manipulated by the service. -/
inductive JsVal where
  | undef : JsVal
  | null : JsVal
  | bool : Bool → JsVal
  | num : Int → JsVal
  | str : String → JsVal
  | arr : List JsVal → JsVal
  | obj : List (String × JsVal) → JsVal
deriving Repr

/-- Attribute maps of records and payload objects (insertion ordered). -/
abbrev Obj := List (String × JsVal)

/-- Field lookup, `undefined` when the key is absent (JavaScript member access). -/
def getField (o : Obj) (k : String) : JsVal :=
  match o.find? (fun kv => kv.1 == k) with
  | some kv => kv.2
  | none => JsVal.undef

/-- Member access on an arbitrary value: objects give their field, everything
else gives `undefined` (the scalar cases that matter never carry fields). -/
def getFieldV (v : JsVal) (k : String) : JsVal :=
  match v with
  | JsVal.obj o => getField o k
  | _ => JsVal.undef

/-- Assignment `o[k] = v`: replaces the binding in place when the key exists,
otherwise appends it, preserving insertion order as JavaScript objects do. -/
def setField : Obj → String → JsVal → Obj
  | [], k, v => [(k, v)]
  | (k', v') :: o, k, v =>
    if k' == k then (k, v) :: o else (k', v') :: setField o k v

/-- Lodash 3 `_.isEmpty`: arrays and strings are empty when their length is
zero, objects when they have no own keys, and every other value (numbers,
booleans, `null`, `undefined`) is considered empty because it has no
enumerable keys. -/
def lodashIsEmpty : JsVal → Bool
  | JsVal.arr xs => xs.isEmpty
  | JsVal.str s => s.isEmpty
  | JsVal.obj fs => fs.isEmpty
  | _ => true

/-- Decimal digit value of a character, `none` for a non-digit. -/
def charDigit? (c : Char) : Option Nat :=
  if 48 ≤ c.toNat ∧ c.toNat ≤ 57 then some (c.toNat - 48) else none

/-- Value of a non-empty all-digit character list, `none` otherwise. -/
def digitsVal? (cs : List Char) : Option Nat :=
  cs.foldl
    (fun acc c =>
      match acc, charDigit? c with
      | some n, some d => some (n * 10 + d)
      | _, _ => none)
    (if cs.isEmpty then none else some 0)

/-- Integer reading of a string under JavaScript numeric coercion, limited to
optionally signed decimal integers (the only identifier shapes the service
meets); `none` models `NaN`. -/
def strToInt? (s : String) : Option Int :=
  match s.toList with
  | '-' :: rest => (digitsVal? rest).map (fun n => -(n : Int))
  | cs => (digitsVal? cs).map (fun n => (n : Int))

/-- JavaScript `ToNumber` on the value shapes the service meets, restricted to
integral results; `none` models `NaN`.  Numbers convert to themselves, a
string to its integer reading (the empty string to `0`), booleans and `null`
to `0`/`1`, `undefined` and plain objects to `NaN`. -/
def jsToNumberAtom : JsVal → Option Int
  | JsVal.num n => some n
  | JsVal.str s => if s.isEmpty then some 0 else strToInt? s
  | JsVal.bool b => some (if b then 1 else 0)
  | JsVal.null => some 0
  | JsVal.undef => none
  | JsVal.arr _ => none
  | JsVal.obj _ => none

/-- JavaScript `ToNumber` including the one-level array coercion (`[x]`
converts like `x`, `[]` like the empty string); `isNaN(v)` in the source is
`(jsToNumber v).isNone`. -/
def jsToNumber : JsVal → Option Int
  | JsVal.arr [] => some 0
  | JsVal.arr [x] => jsToNumberAtom x
  | JsVal.arr (_ :: _ :: _) => none
  | v => jsToNumberAtom v

/-- JavaScript falsiness: `undefined`, `null`, `false`, `0` and the empty
string are falsy, everything else truthy. -/
def jsFalsy : JsVal → Bool
  | JsVal.undef => true
  | JsVal.null => true
  | JsVal.bool b => !b
  | JsVal.num n => n == 0
  | JsVal.str s => s.isEmpty
  | _ => false

/-- Strict equality on the scalar shapes used as primary keys. -/
def pkEq : JsVal → JsVal → Bool
  | JsVal.num a, JsVal.num b => a == b
  | JsVal.str a, JsVal.str b => a == b
  | _, _ => false

/-- Error taxonomy of the error-globals constructors used by the service
(rest-service.js requires BadRequestError, NotFoundError, TypeError and
DatabaseError; other store failures are carried as `storeError`). -/
inductive RestError where
  | badRequest : String → RestError
  | notFound : String → RestError
  | typeError : String → RestError
  | databaseError : RestError → String → RestError
  | storeError : String → RestError
deriving Repr, DecidableEq

/-- Association metadata the service reads from a sequelize model
(rest-service.js: associationType, as, identifier, source and target
primary-key attributes, target name). -/
structure Association where
  associationType : String
  asName : String
  identifier : String
  sourceKey : String
  targetName : String
  targetKey : String
deriving Repr, DecidableEq

/-- Record-type metadata the service reads: name, primary-key attribute, the
typed attribute names used by `Model.build`, and the declared associations. -/
structure Model where
  name : String
  primaryKeyAttribute : String
  attributes : List String
  associations : List Association
deriving Repr

/-- One table of the underlying store: the attribute names declared NOT NULL
(whose violation makes an insert fail) and the current rows. -/
structure Table where
  required : List String
  rows : List Obj
deriving Repr

/-- The visible relational store: one table per record type name. -/
abbrev Store := List (String × Table)

/-- Store state while a transaction is open: `base` is what is durable right
now (what a rollback leaves behind), `view` is the content as seen through
the open transaction.  An operation issued WITH the transaction handle
touches only `view`; an operation issued WITHOUT it is autocommitted and
touches both.  Commit publishes `view`; rollback discards it. -/
structure Db where
  base : Store
  view : Store
deriving Repr

/-- Trace of calls issued against the store, each write recording whether the
call carried the open transaction handle in its options. -/
inductive StoreOp where
  | beginTxn : StoreOp
  | save : String → Bool → Bool → StoreOp
  | create : String → Obj → Bool → StoreOp
  | update : String → Obj → JsVal → Bool → StoreOp
  | setAccessor : String → List JsVal → Bool → StoreOp
  | commitTxn : StoreOp
  | rollbackTxn : StoreOp
deriving Repr

/-- Execution state threaded through the deferred tasks of one `persist`
call: the store, the in-memory root instance being built, and the trace of
store calls issued so far. -/
structure ExecSt where
  db : Db
  inst : Obj
  trace : List StoreOp
deriving Repr

/-- A deferred task as built by the persistence strategies: a function from
the execution state to the new state plus a resolution or rejection. -/
abbrev TaskFun := ExecSt → ExecSt × Except RestError Unit

/-- Sequential task execution (when/sequence): tasks run strictly in list
order and the first rejection stops the chain. -/
def runSeq : List TaskFun → ExecSt → ExecSt × Except RestError Unit
  | [], st => (st, Except.ok ())
  | t :: ts, st =>
    match t st with
    | (st', Except.ok _) => runSeq ts st'
    | (st', Except.error e) => (st', Except.error e)

/-- Concurrent task execution (when/parallel): every task is started, so every
store calls of every task are issued, and the aggregate rejects with the first
rejection if any task fails. -/
def runPar : List TaskFun → ExecSt → ExecSt × Except RestError Unit
  | [], st => (st, Except.ok ())
  | t :: ts, st =>
    match t st with
    | (st', Except.ok _) => runPar ts st'
    | (st', Except.error e) => ((runPar ts st').1, Except.error e)

/-- Table lookup by record type name, defaulting to an empty unconstrained
table for a name the store does not know. -/
def getTable (s : Store) (tname : String) : Table :=
  match s.find? (fun nt => nt.1 == tname) with
  | some nt => nt.2
  | none => { required := [], rows := [] }

/-- Pointwise table replacement used by the store write operations. -/
def mapTable (s : Store) (tname : String) (f : Table → Table) : Store :=
  s.map (fun nt => if nt.1 == tname then (nt.1, f nt.2) else nt)

/-- Greatest numeric primary key present in a list of rows. -/
def maxPk (pk : String) (rows : List Obj) : Int :=
  rows.foldl
    (fun m row =>
      match getField row pk with
      | JsVal.num n => max m n
      | _ => m)
    0

/-- Row insertion of the store: fails when a NOT NULL attribute is absent or
null in the data, otherwise assigns the next numeric primary key (unless the
data carries one) and appends the row.  Returns the stored row. -/
def storeCreate (tname pk : String) (data : Obj) (s : Store) :
    Except RestError (Obj × Store) :=
  let t := getTable s tname
  if t.required.any (fun f => jsFalsy (getField data f)) then
    Except.error (RestError.storeError "notNull violation")
  else
    let idv :=
      match getField data pk with
      | JsVal.undef => JsVal.num (maxPk pk t.rows + 1)
      | v => v
    let row := setField data pk idv
    Except.ok (row, mapTable s tname (fun t => { t with rows := t.rows ++ [row] }))

/-- Field-by-field merge of the data of an update into a row. -/
def mergeObj (row : Obj) (data : Obj) : Obj :=
  data.foldl (fun r kv => setField r kv.1 kv.2) row

/-- Bulk UPDATE of the store: merges the data into every row whose `whereKey`
attribute equals `idv` and reports the affected row count; an UPDATE whose
where-clause matches no row resolves with count zero rather than an error. -/
def storeUpdate (tname whereKey : String) (data : Obj) (idv : JsVal) (s : Store) :
    Nat × Store :=
  let t := getTable s tname
  let n := (t.rows.filter (fun row => pkEq (getField row whereKey) idv)).length
  (n, mapTable s tname (fun t =>
    { t with rows := t.rows.map (fun row =>
        if pkEq (getField row whereKey) idv then mergeObj row data else row) }))

/-- Sequelize set accessor on a has-many association: rows named in `ids` get
their foreign key pointed at `rootId`, rows currently pointing at `rootId`
but not named get it cleared.  Only the foreign-key attribute is touched. -/
def storeSet (tname pk fk : String) (ids : List JsVal) (rootId : JsVal) (s : Store) :
    Store :=
  mapTable s tname (fun t =>
    { t with rows := t.rows.map (fun row =>
        if ids.any (fun i => pkEq (getField row pk) i) then
          setField row fk rootId
        else if pkEq (getField row fk) rootId then
          setField row fk JsVal.null
        else row) })

/-- Default create association handler (rest-service.js createAssociation,
lines 433-437): `model.create(data, { transaction: transaction })` — an
insert into the target table issued with the transaction handle.  Resolves
with the created record. -/
def createAssociation (tname pk : String) (data : Obj) (st : ExecSt) :
    ExecSt × Except RestError JsVal :=
  let st := { st with trace := st.trace ++ [StoreOp.create tname data true] }
  match storeCreate tname pk data st.db.view with
  | Except.ok (row, s') =>
    ({ st with db := { st.db with view := s' } }, Except.ok (JsVal.obj row))
  | Except.error e => (st, Except.error e)

/-- Default update association handler (rest-service.js updateAssociation,
lines 448-455): `model.update(data, { transaction, where: { id: data.id } })`
— note the where-clause uses the literal attribute name `id`.  Resolves with
the sequelize `[affectedCount]` array. -/
def updateAssociation (tname : String) (data : Obj) (st : ExecSt) :
    ExecSt × Except RestError JsVal :=
  let idv := getField data "id"
  let st := { st with trace := st.trace ++ [StoreOp.update tname data idv true] }
  let (n, s') := storeUpdate tname "id" data idv st.db.view
  ({ st with db := { st.db with view := s' } }, Except.ok (JsVal.arr [JsVal.num (Int.ofNat n)]))

/-- Handler dispatch (rest-service.js resolveAssociationHandler, lines
409-422): intent is create when the id is `undefined`, update otherwise; on
the default service the generic `createAssociation` / `updateAssociation`
fallbacks always exist, so resolution never reaches the TypeError branch.
Combined here with persistAssociation (lines 379-390), which reads the id
from the hash under the primary-key attribute of the target and runs the resolved
handler with the transaction.  A non-object hash reaching the create handler
is rejected by the store, mirroring sequelize rejecting non-object create
data. -/
def persistAssociation (assoc : Association) (hash : JsVal) (st : ExecSt) :
    ExecSt × Except RestError JsVal :=
  match hash with
  | JsVal.obj h =>
    match getField h assoc.targetKey with
    | JsVal.undef => createAssociation assoc.targetName assoc.targetKey h st
    | _ => updateAssociation assoc.targetName h st
  | _ => (st, Except.error (RestError.typeError "Invalid association data"))

/-- JavaScript `hash[key] || record.get(key)` (rest-service.js line 313):
short-circuits on a truthy hash field, otherwise `get` on the resolved record —
which is only a function when the record is an instance (an object). -/
def hashKeyOrRecordGet (h : Obj) (k : String) (record : JsVal) :
    Except RestError JsVal :=
  let hv := getField h k
  if jsFalsy hv then
    match record with
    | JsVal.obj fs => Except.ok (getField fs k)
    | _ => Except.error (RestError.typeError "record.get is not a function")
  else Except.ok hv

/-- ToOne strategy (rest-service.js persistBelongsTo, lines 296-317).  Returns
no task when lodash finds `data[association.as]` empty — which holds for
absent values, empty objects AND for plain numbers.  The task sets the
foreign key directly for a value `isNaN` rejects (numerically coercible),
and otherwise runs the create/update handler and assigns
`hash[primaryKey] || record.get(primaryKey)` to the foreign key of the root. -/
def persistBelongsTo (assoc : Association) (data : Obj) : Option TaskFun :=
  if lodashIsEmpty (getField data assoc.asName) then none
  else some (fun st =>
    let hash := getField data assoc.asName
    if (jsToNumber hash).isSome then
      ({ st with inst := setField st.inst assoc.identifier hash }, Except.ok ())
    else
      match persistAssociation assoc hash st with
      | (st', Except.ok record) =>
        match hash with
        | JsVal.obj h =>
          match hashKeyOrRecordGet h assoc.targetKey record with
          | Except.ok v =>
            ({ st' with inst := setField st'.inst assoc.identifier v }, Except.ok ())
          | Except.error e => (st', Except.error e)
        | _ => (st', Except.error (RestError.typeError "Invalid association data"))
      | (st', Except.error e) => (st', Except.error e))

/-- Per-entry task of the ToMany strategy (rest-service.js persistHasMany,
lines 345-358).  A numerically coercible entry is attached through the set
accessor — a call issued WITHOUT the transaction option (line 349:
`model[association.accessors.set]([hash])`).  Any other entry gets the
primary key of the root written into its foreign-key field and is run through the
create/update handler dispatch with the transaction.  Setting a field on a
non-object entry throws under strict mode. -/
def hasManyEntryTask (assoc : Association) (hash : JsVal) : TaskFun := fun st =>
  if (jsToNumber hash).isSome then
    let rootId := getField st.inst assoc.sourceKey
    let db' : Db :=
      { base := storeSet assoc.targetName assoc.targetKey assoc.identifier [hash] rootId st.db.base
        view := storeSet assoc.targetName assoc.targetKey assoc.identifier [hash] rootId st.db.view }
    ({ st with
        db := db'
        trace := st.trace ++ [StoreOp.setAccessor assoc.targetName [hash] false] },
      Except.ok ())
  else
    match hash with
    | JsVal.obj h =>
      let h' := setField h assoc.identifier (getField st.inst assoc.sourceKey)
      match persistAssociation assoc (JsVal.obj h') st with
      | (st', Except.ok _) => (st', Except.ok ())
      | (st', Except.error e) => (st', Except.error e)
    | _ => (st, Except.error (RestError.typeError "Invalid association entry"))

/-- ToMany strategy (rest-service.js persistHasMany, lines 334-364).  Returns
no task when lodash finds the value empty; when the value is an array it
maps every entry to a task and yields one aggregate task running them with
when/parallel; a non-array value falls through the `_.isArray` guard and the
method returns `undefined` — no task at all. -/
def persistHasMany (assoc : Association) (data : Obj) : Option TaskFun :=
  if lodashIsEmpty (getField data assoc.asName) then none
  else
    match getField data assoc.asName with
    | JsVal.arr records =>
      some (fun st => runPar (records.map (hasManyEntryTask assoc)) st)
    | _ => none

/-- Root save task (rest-service.js persist, lines 253-258): saves the built
instance with the transaction; a new record (payload without truthy `id`) is
inserted with a freshly assigned primary key written back onto the instance,
an existing one is updated in place. -/
def saveTask (model : Model) (data : Obj) : TaskFun := fun st =>
  let isNew := jsFalsy (getField data "id")
  let st := { st with trace := st.trace ++ [StoreOp.save model.name isNew true] }
  if isNew then
    match storeCreate model.name model.primaryKeyAttribute st.inst st.db.view with
    | Except.ok (row, s') =>
      ({ st with
          db := { st.db with view := s' }
          inst := setField st.inst model.primaryKeyAttribute
            (getField row model.primaryKeyAttribute) },
        Except.ok ())
    | Except.error e => (st, Except.error e)
  else
    let (_, s') := storeUpdate model.name model.primaryKeyAttribute st.inst
      (getField st.inst model.primaryKeyAttribute) st.db.view
    ({ st with db := { st.db with view := s' } }, Except.ok ())

/-- Origin tag of a task in the executed list. -/
inductive TaskDesc where
  | saveRoot : TaskDesc
  | toOne : String → TaskDesc
  | toMany : String → TaskDesc
deriving Repr, DecidableEq

/-- Strategy lookup (rest-service.js persist, lines 262-265): the handler
method name is `persist` + associationType, and only persistBelongsTo and
persistHasMany exist on the service, so every other association type has no
handler and contributes nothing. -/
def assocHandler (assoc : Association) (data : Obj) : Option TaskFun :=
  if assoc.associationType = "BelongsTo" then persistBelongsTo assoc data
  else if assoc.associationType = "HasMany" then persistHasMany assoc data
  else none

/-- Task-list construction (rest-service.js persist, lines 246-276): the list
starts with the root save task; walking the declared associations in order,
a task from a BelongsTo association is unshifted onto the front and every
other produced task is pushed onto the back. -/
def taskStep (data : Obj) (tasks : List (TaskDesc × TaskFun)) (assoc : Association) :
    List (TaskDesc × TaskFun) :=
  match assocHandler assoc data with
  | some task =>
    if assoc.associationType == "BelongsTo" then
      (TaskDesc.toOne assoc.asName, task) :: tasks
    else
      tasks ++ [(TaskDesc.toMany assoc.asName, task)]
  | none => tasks

def buildTasks (model : Model) (data : Obj) : List (TaskDesc × TaskFun) :=
  model.associations.foldl (taskStep data)
    [(TaskDesc.saveRoot, saveTask model data)]

/-- Instance construction (`model.build(data, ...)`): the typed attributes of
the model are taken from the payload, association keys and unknown keys are
not instance attributes. -/
def buildInstance (model : Model) (data : Obj) : Obj :=
  data.filter (fun kv => model.attributes.contains kv.1)

/-- Overall outcome of one persist call: the resolution or rejection, the
store visible afterwards, and the trace of store calls issued. -/
structure PersistResult where
  result : Except RestError Obj
  store : Store
  trace : List StoreOp
deriving Repr

/-- Whether an `Except` outcome is a resolution. -/
def resultOk : Except RestError Obj → Bool
  | Except.ok _ => true
  | Except.error _ => false

/-- The persist pipeline (rest-service.js persist, lines 246-279, and
executeTasks, lines 491-498): build the instance, build the task list, open
one transaction, run the tasks sequentially inside it, commit on success
(resolving with the instance) and roll back on the first rejection —
whereupon only writes issued with the transaction handle are undone. -/
def persistExec (model : Model) (data : Obj) (s : Store) : PersistResult :=
  let tasks := (buildTasks model data).map Prod.snd
  let st0 : ExecSt :=
    { db := { base := s, view := s }
      inst := buildInstance model data
      trace := [StoreOp.beginTxn] }
  match runSeq tasks st0 with
  | (st, Except.ok _) =>
    { result := Except.ok st.inst
      store := st.db.view
      trace := st.trace ++ [StoreOp.commitTxn] }
  | (st, Except.error e) =>
    { result := Except.error e
      store := st.db.base
      trace := st.trace ++ [StoreOp.rollbackTxn] }

/-- Primary-key lookup (`model.findOne(id)` against the old sequelize line,
which accepts a raw primary-key value). -/
def findRowByPk (tname pk : String) (idv : JsVal) (s : Store) : Option Obj :=
  (getTable s tname).rows.find? (fun row => pkEq (getField row pk) idv)

/-- Row removal by primary key (`instance.destroy()`). -/
def removeRowByPk (tname pk : String) (idv : JsVal) (s : Store) : Store :=
  mapTable s tname (fun t =>
    { t with rows := t.rows.filter (fun row => !pkEq (getField row pk) idv) })

/-- Delete operation (rest-service.js delete, lines 132-140): looks the record
up by id and — when it is absent — rejects with a BadRequestError (`Can not
delete model ... as it does not exists.`), otherwise destroys it. -/
def deleteMethod (model : Model) (idv : JsVal) (s : Store) :
    Except RestError Unit × Store :=
  match findRowByPk model.name model.primaryKeyAttribute idv s with
  | none =>
    (Except.error (RestError.badRequest "Can not delete model as it does not exists"), s)
  | some _ => (Except.ok (), removeRowByPk model.name model.primaryKeyAttribute idv s)

/-- Sub-resource resolution (rest-service.js resolveSubresourceInstance, lines
458-479): when no declared association targets the requested sub-resource
type it rejects with a BadRequestError (`No subresource with name ...
found`); with a matching association but an absent parent instance it
rejects with a NotFoundError; otherwise it resolves with the instance and
the association. -/
def resolveSubresourceInstance (model : Model) (idv : JsVal) (subName : String)
    (s : Store) : Except RestError (Obj × Association) :=
  match model.associations.find? (fun a => a.targetName == subName) with
  | none => Except.error (RestError.badRequest "No subresource with name found")
  | some assoc =>
    match findRowByPk model.name model.primaryKeyAttribute idv s with
    | none => Except.error (RestError.notFound "Can not find model")
    | some inst => Except.ok (inst, assoc)

/-- Transaction wrapper outcome algebra (rest-service.js transaction, lines
180-209).  The unit of work resolves or rejects; on rejection the wrapper
rolls the underlying transaction back, and the rollback itself resolves or
rejects.  Commit success and the resolution of the work are passed through; a
rolled-back failure rejects with the original error; a failing rollback
rejects with a DatabaseError carrying the message Transaction rollback failure,
built from the rollback failure alone — the original error is not part of it. -/
def transactionMethod (work : Except RestError Obj)
    (rollbackOutcome : Except RestError Unit) : Except RestError Obj :=
  match work with
  | Except.ok a => Except.ok a
  | Except.error e =>
    match rollbackOutcome with
    | Except.ok _ => Except.error e
    | Except.error e2 =>
      Except.error (RestError.databaseError e2 "Transaction rollback failure")

/-- Subterm test on the error taxonomy: whether an error value wraps (or is)
the given error. -/
def errContains : RestError → RestError → Bool
  | e, target =>
    if e = target then true
    else
      match e with
      | RestError.databaseError cause _ => errContains cause target
      | _ => false

/-- Payload normalisation of the adapter (rest-adapter.js normalizePayload,
lines 114-133): an empty payload is rejected with a BadRequestError before
anything else happens; otherwise the data is unwrapped from the type key,
then from the singular model-name key, then taken whole. -/
def normalizePayload (typeKey singularKey : String) (payload : JsVal) :
    Except RestError JsVal :=
  if lodashIsEmpty payload then
    Except.error (RestError.badRequest "No data send to the server")
  else
    let d1 := getFieldV payload typeKey
    let d2 := if jsFalsy d1 then getFieldV payload singularKey else d1
    Except.ok (if jsFalsy d2 then payload else d2)

/-- Object coercion for the data handed to persist. -/
def asObj : JsVal → Obj
  | JsVal.obj o => o
  | _ => []

/-- Adapter create route (rest-adapter.js create, lines 213-220): normalises
the payload — which throws on an empty payload before any store call — and
only then hands the data to the persist method of the service. -/
def adapterCreate (model : Model) (typeKey singularKey : String) (payload : JsVal)
    (s : Store) : PersistResult :=
  match normalizePayload typeKey singularKey payload with
  | Except.error e => { result := Except.error e, store := s, trace := [] }
  | Except.ok d => persistExec model (asObj d) s

/-- One query include entry: the eagerly joined target model and the relation
alias (rest-service.js populate pushes `{ model, as }`). -/
structure IncludeEntry where
  modelName : String
  asName : String
deriving Repr, DecidableEq

/-- The part of a sequelize query object populate touches: the `include`
member, absent until someone assigns an array to it. -/
structure Query where
  includeList : Option (List IncludeEntry)
deriving Repr, DecidableEq

/-- Mutable heap of query objects, keyed by reference, making the in-place
mutation of a query held by the caller observable in the embedding. -/
abbrev QueryHeap := List (Nat × Query)

/-- Heap update at a reference. -/
def heapSet (h : QueryHeap) (r : Nat) (q : Query) : QueryHeap :=
  h.map (fun rq => if rq.1 == r then (rq.1, q) else rq)

/-- Query population (rest-service.js populate, lines 219-236): ensures
`query.include` is an array, pushes one `{ model, as }` entry per declared
association — no de-duplication, no recursion into the targets — and
returns the query it was given.  The assignment happens through the reference held by
the caller: the same reference comes back and the heap cell behind it now
holds the grown query.  (The `!model.associations` guard of the source only
fires for a value lacking the associations object, which a sequelize model
always carries, so it is not represented.) -/
def populateRef (model : Model) (r : Nat) (h : QueryHeap) : Nat × QueryHeap :=
  let q := ((h.find? (fun rq => rq.1 == r)).map Prod.snd).getD { includeList := none }
  let inc := q.includeList.getD []
  let q' : Query :=
    { includeList :=
        some (inc ++ model.associations.map (fun a =>
          { modelName := a.targetName, asName := a.asName })) }
  (r, heapSet h r q')


/-- Test fixture: the HasMany association from User to Task of the test models
(User.hasMany(Task), alias Tasks, foreign key UserId). -/
def tasksAssoc : Association :=
  { associationType := "HasMany"
    asName := "Tasks"
    identifier := "UserId"
    sourceKey := "id"
    targetName := "Task"
    targetKey := "id" }

/-- Test fixture: the BelongsTo association from Task to User of the test
models (Task.belongsTo(User), alias User, foreign key UserId). -/
def userAssoc : Association :=
  { associationType := "BelongsTo"
    asName := "User"
    identifier := "UserId"
    sourceKey := "id"
    targetName := "User"
    targetKey := "id" }

/-- Test fixture: the User record type. -/
def userModel : Model :=
  { name := "User"
    primaryKeyAttribute := "id"
    attributes := ["id", "name", "email"]
    associations := [tasksAssoc] }

/-- Test fixture: the Task record type. -/
def taskModel : Model :=
  { name := "Task"
    primaryKeyAttribute := "id"
    attributes := ["id", "name", "type", "UserId"]
    associations := [userAssoc] }

/-- Store for the atomicity scenario: no users, one task (id 1) with a NOT
NULL name and no owner. -/
def c1Store : Store :=
  [("User", { required := ["name"], rows := [] }),
   ("Task", { required := ["name"],
              rows := [[("id", JsVal.num 1), ("name", JsVal.str "T"),
                        ("UserId", JsVal.null)]] })]

/-- Payload for the atomicity scenario: a new user attaching existing task 1
by bare identifier and creating a second task that violates the NOT NULL
name constraint. -/
def c1Payload : Obj :=
  [("name", JsVal.str "New"),
   ("Tasks", JsVal.arr [JsVal.num 1, JsVal.obj [("type", JsVal.str "x")]])]


def fooModel : Model :=
  { name := "Foo", primaryKeyAttribute := "id",
    attributes := ["id", "name"], associations := [] }

def fooStore : Store := [("Foo", { required := [], rows := [] })]


def c5Payload : Obj :=
  [("name", JsVal.str "New User"),
   ("Tasks", JsVal.obj [("name", JsVal.str "T")])]

def c10Store : Store :=
  [("User", { required := ["name"], rows := [] }),
   ("Task", { required := ["name"], rows := [] })]


def c6Payload : Obj :=
  [("name", JsVal.str "t"), ("User", JsVal.num 7)]


def c10Payload : Obj :=
  [("name", JsVal.str "New User"),
   ("Tasks", JsVal.arr [JsVal.obj [("id", JsVal.num 5)]])]


/-- Whether a value is the JavaScript `undefined`. -/
def isUndef : JsVal → Bool
  | JsVal.undef => true
  | _ => false

/-- Task that does nothing, used as an `Option.getD` default when a strategy
is known to have produced a task. -/
def idTask : TaskFun := fun st => (st, Except.ok ())

/-- Resolved instance of a persist outcome (empty object for a rejection). -/
def resultInst : Except RestError Obj → Obj
  | Except.ok o => o
  | Except.error _ => []

/-- Whether an outcome is a rejection with a NotFound-kind error. -/
def failsNotFound {α : Type} : Except RestError α → Bool
  | Except.error (RestError.notFound _) => true
  | _ => false

/-- Whether some create call for the given record type appears in a trace. -/
def traceHasCreateFor (tname : String) (tr : List StoreOp) : Bool :=
  tr.any (fun op =>
    match op with
    | StoreOp.create t _ _ => t == tname
    | _ => false)

/-- Row content outside a set of attribute names. -/
def eraseKeys (ks : List String) (r : Obj) : Obj :=
  r.filter (fun kv => !(ks.contains kv.1))

/-- Store content outside a set of attribute names: the rows of every table with
those attributes erased.  Two stores equal under this map differ at most in
the listed attributes of existing rows. -/
def tablesOutside (ks : List String) (s : Store) : List (String × List Obj) :=
  s.map (fun nt => (nt.1, nt.2.rows.map (eraseKeys ks)))

/-- Associations of a declaration list that yield a prepended ToOne task for
the given payload. -/
def toOneProduced (data : Obj) (assocs : List Association) : List Association :=
  assocs.filter (fun a =>
    a.associationType == "BelongsTo" && (assocHandler a data).isSome)

/-- Associations of a declaration list that yield an appended ToMany task for
the given payload. -/
def toManyProduced (data : Obj) (assocs : List Association) : List Association :=
  assocs.filter (fun a =>
    !(a.associationType == "BelongsTo") && (assocHandler a data).isSome)

/-- Store fixture with one empty User table. -/
def c7Store : Store := [("User", { required := ["name"], rows := [] })]

/-- Heap fixture holding one query object without an include member. -/
def q0Heap : QueryHeap := [(0, { includeList := none })]

/-- Execution-state fixture used by the concrete witnesses. -/
def stW : ExecSt :=
  { db := { base := c10Store, view := c10Store }
    inst := [("name", JsVal.str "New User"), ("id", JsVal.num 1)]
    trace := [] }

/-- Payload fixture attaching an existing user by a numeric-string
identifier. -/
def c6StrPayload : Obj := [("name", JsVal.str "t"), ("User", JsVal.str "7")]

/-- A task only ever appends to the store-call trace. -/
def traceExtends (t : TaskFun) : Prop :=
  ∀ st : ExecSt, ∃ tl, ((t st).1).trace = st.trace ++ tl

/-- Agreement of two store states outside a set of attribute names, on both
the durable content and the transaction view. -/
def dbOutsideEq (ks : List String) (d d' : Db) : Prop :=
  tablesOutside ks d.base = tablesOutside ks d'.base ∧
  tablesOutside ks d.view = tablesOutside ks d'.view

/-- Payload fixture whose BelongsTo value is an object carrying only the
primary key. -/
def c3Payload : Obj :=
  [("name", JsVal.str "t"), ("User", JsVal.obj [("id", JsVal.num 3)])]

theorem getField_nil (k : String) : getField [] k = JsVal.undef := rfl

theorem getField_cons (a : String) (b : JsVal) (r : Obj) (k : String) :
    getField ((a, b) :: r) k = if a == k then b else getField r k := by
  by_cases h : a == k <;> simp [getField, List.find?, h]

theorem eraseKeys_cons (ks : List String) (a : String) (b : JsVal) (r : Obj) :
    eraseKeys ks ((a, b) :: r) =
      if ks.contains a then eraseKeys ks r else (a, b) :: eraseKeys ks r := by
  by_cases h : ks.contains a <;>
    simp [eraseKeys, List.filter_cons, h]

theorem getField_setField_ne {r : Obj} {k k' : String} {v : JsVal} (h : k' ≠ k) :
    getField (setField r k v) k' = getField r k' := by
  have hkk : (k == k') = false := beq_eq_false_iff_ne.mpr (Ne.symm h)
  induction r with
  | nil =>
    simp [setField, getField_cons, getField_nil, hkk]
  | cons kv r ih =>
    obtain ⟨a, b⟩ := kv
    by_cases ha : a == k
    · have ha' : a = k := eq_of_beq ha
      subst ha'
      simp [setField, ha, getField_cons, hkk]
    · simp [setField, ha, getField_cons, ih]

theorem eraseKeys_setField_mem {ks : List String} {r : Obj} {k : String} {v : JsVal}
    (h : ks.contains k = true) :
    eraseKeys ks (setField r k v) = eraseKeys ks r := by
  have hmem : k ∈ ks := by simpa using h
  induction r with
  | nil => simp [setField, eraseKeys_cons, hmem, eraseKeys]
  | cons kv r ih =>
    obtain ⟨a, b⟩ := kv
    by_cases ha : a == k
    · have ha' : a = k := eq_of_beq ha
      subst ha'
      simp [setField, eraseKeys_cons, hmem]
    · have ha' : (a == k) = false := by simpa using ha
      simp only [setField, ha']
      simp only [Bool.false_eq_true, if_false]
      rw [eraseKeys_cons, eraseKeys_cons, ih]

theorem eraseKeys_mergeObj {ks : List String} {data : Obj}
    (h : ∀ kv ∈ data, ks.contains kv.1 = true) :
    ∀ r, eraseKeys ks (mergeObj r data) = eraseKeys ks r := by
  induction data with
  | nil => intro r; rfl
  | cons kv d ih =>
    intro r
    have h1 : ks.contains kv.1 = true := h kv (List.mem_cons_self _ _)
    have h2 : ∀ kv' ∈ d, ks.contains kv'.1 = true :=
      fun kv' hm => h kv' (List.mem_cons_of_mem _ hm)
    have hstep : mergeObj r (kv :: d) = mergeObj (setField r kv.1 kv.2) d := rfl
    rw [hstep, ih h2, eraseKeys_setField_mem h1]

theorem mem_setField {r : Obj} {k : String} {v : JsVal} {kv : String × JsVal}
    (h : kv ∈ setField r k v) : kv.1 = k ∨ kv ∈ r := by
  induction r with
  | nil =>
    simp [setField] at h
    subst h
    exact Or.inl rfl
  | cons kv' r ih =>
    obtain ⟨a, b⟩ := kv'
    by_cases ha : a == k
    · have ha' : a = k := eq_of_beq ha
      subst ha'
      simp only [setField, ha, if_pos rfl] at h
      rcases List.mem_cons.mp h with h | h
      · subst h; exact Or.inl rfl
      · exact Or.inr (List.mem_cons_of_mem _ h)
    · have ha' : (a == k) = false := by simpa using ha
      simp only [setField, ha', Bool.false_eq_true, if_false] at h
      rcases List.mem_cons.mp h with h | h
      · subst h; exact Or.inr (List.mem_cons_self _ _)
      · rcases ih h with h' | h'
        · exact Or.inl h'
        · exact Or.inr (List.mem_cons_of_mem _ h')

theorem tablesOutside_mapTable {ks : List String} {tname : String}
    (f : Table → Table)
    (hf : ∀ t : Table, ((f t).rows).map (eraseKeys ks) = t.rows.map (eraseKeys ks)) :
    ∀ s : Store, tablesOutside ks (mapTable s tname f) = tablesOutside ks s := by
  intro s
  unfold tablesOutside mapTable
  rw [List.map_map]
  apply List.map_congr_left
  intro nt _
  by_cases hn : nt.1 = tname
  · simp [hn, hf]
  · simp [hn]

theorem tablesOutside_storeSet {ks : List String} {tname pk fk : String}
    {ids : List JsVal} {rootId : JsVal} {s : Store}
    (hfk : ks.contains fk = true) :
    tablesOutside ks (storeSet tname pk fk ids rootId s) = tablesOutside ks s := by
  unfold storeSet
  apply tablesOutside_mapTable
  intro t
  rw [List.map_map]
  apply List.map_congr_left
  intro row _
  simp only [Function.comp_apply]
  split
  · exact eraseKeys_setField_mem hfk
  · split
    · exact eraseKeys_setField_mem hfk
    · rfl

theorem tablesOutside_storeUpdate {ks : List String} {tname wk : String}
    {data : Obj} {idv : JsVal} {s : Store}
    (hdata : ∀ kv ∈ data, ks.contains kv.1 = true) :
    tablesOutside ks (storeUpdate tname wk data idv s).2 = tablesOutside ks s := by
  have hf : ∀ t : Table,
      (t.rows.map (fun row =>
        if pkEq (getField row wk) idv = true then mergeObj row data else row)).map
          (eraseKeys ks) = t.rows.map (eraseKeys ks) := by
    intro t
    rw [List.map_map]
    apply List.map_congr_left
    intro row _
    simp only [Function.comp_apply]
    split
    · exact eraseKeys_mergeObj hdata row
    · rfl
  exact tablesOutside_mapTable
    (fun t => { t with rows := t.rows.map (fun row =>
      if pkEq (getField row wk) idv = true then mergeObj row data else row) })
    hf s

theorem taskStep_fold (data : Obj) :
    ∀ (assocs : List Association) (acc : List (TaskDesc × TaskFun)),
      (assocs.foldl (taskStep data) acc).map Prod.fst =
        ((toOneProduced data assocs).reverse.map (fun a => TaskDesc.toOne a.asName))
          ++ acc.map Prod.fst
          ++ ((toManyProduced data assocs).map (fun a => TaskDesc.toMany a.asName)) := by
  intro assocs
  induction assocs with
  | nil => intro acc; simp [toOneProduced, toManyProduced]
  | cons a as ih =>
    intro acc
    cases hh : assocHandler a data with
    | none =>
      have hstep : taskStep data acc a = acc := by simp [taskStep, hh]
      simp only [List.foldl_cons, hstep]
      rw [ih]
      simp [toOneProduced, toManyProduced, List.filter_cons, hh]
    | some task =>
      by_cases hb : a.associationType == "BelongsTo"
      · have hstep : taskStep data acc a = (TaskDesc.toOne a.asName, task) :: acc := by
          simp [taskStep, hh, hb]
        simp only [List.foldl_cons, hstep]
        rw [ih]
        simp [toOneProduced, toManyProduced, List.filter_cons, hh, hb]
      · have hstep : taskStep data acc a = acc ++ [(TaskDesc.toMany a.asName, task)] := by
          simp [taskStep, hh, hb]
        simp only [List.foldl_cons, hstep]
        rw [ih]
        simp [toOneProduced, toManyProduced, List.filter_cons, hh, hb]

/-- C2: for every type and payload, the task list built by persist consists of
the produced ToOne (BelongsTo) tasks — each prepended, in declaration order,
hence sitting before the root save — then the root save task, then the
produced ToMany tasks appended in declaration order after it; the list is
then run strictly sequentially inside the transaction by `runSeq`, the
embedding of the when/sequence call of executeTasks. -/
theorem C2_task_ordering (model : Model) (data : Obj) :
    (buildTasks model data).map Prod.fst =
      ((toOneProduced data model.associations).reverse.map
        (fun a => TaskDesc.toOne a.asName))
        ++ [TaskDesc.saveRoot]
        ++ ((toManyProduced data model.associations).map
          (fun a => TaskDesc.toMany a.asName)) ∧
    (∀ a ∈ toOneProduced data model.associations,
      a.associationType = "BelongsTo") ∧
    (∀ a ∈ toManyProduced data model.associations,
      a.associationType = "HasMany") := by
  refine ⟨?_, ?_, ?_⟩
  · have h := taskStep_fold data model.associations
      [(TaskDesc.saveRoot, saveTask model data)]
    simpa [buildTasks] using h
  · intro a ha
    have hp := List.of_mem_filter ha
    have := (Bool.and_eq_true _ _).mp hp
    exact eq_of_beq this.1
  · intro a ha
    have hp := List.of_mem_filter ha
    have hand := (Bool.and_eq_true _ _).mp hp
    have hnb : ¬ a.associationType = "BelongsTo" := by
      intro hcontra
      rw [hcontra] at hand
      simp at hand
    by_cases hm : a.associationType = "HasMany"
    · exact hm
    · exfalso
      have : assocHandler a data = none := by
        simp [assocHandler, hnb, hm]
      rw [this] at hand
      simp at hand

/-- C1: evaluation of the embedded persist on a payload whose ToMany value
attaches existing task 1 by bare identifier and creates a second task that
violates a NOT NULL constraint.  The persist call fails and rolls back, yet
the attach write survives in the store (task 1 keeps the foreign key of the
rolled-back root) because persistHasMany issues the set-accessor call
without the transaction option — the trace records it with the
transaction flag false.  This contradicts the claimed atomicity. -/
theorem C1_attach_write_survives_failed_persist :
    resultOk (persistExec userModel c1Payload c1Store).result = false ∧
    (persistExec userModel c1Payload c1Store).trace =
      [StoreOp.beginTxn,
       StoreOp.save "User" true true,
       StoreOp.setAccessor "Task" [JsVal.num 1] false,
       StoreOp.create "Task" [("type", JsVal.str "x"), ("UserId", JsVal.num 1)] true,
       StoreOp.rollbackTxn] ∧
    (persistExec userModel c1Payload c1Store).store =
      [("User", { required := ["name"], rows := [] }),
       ("Task", { required := ["name"],
                  rows := [[("id", JsVal.num 1), ("name", JsVal.str "T"),
                            ("UserId", JsVal.num 1)]] })] :=
  ⟨rfl, rfl, rfl⟩

/-- C4 counterexample: persist itself accepts an empty payload — the call
resolves and issues store calls (transaction begin, root save, commit), so
it does not fail with a BadRequest-kind error before any store call. -/
theorem C4_persist_accepts_empty_payload :
    resultOk (persistExec fooModel [] fooStore).result = true ∧
    (persistExec fooModel [] fooStore).trace =
      [StoreOp.beginTxn, StoreOp.save "Foo" true true, StoreOp.commitTxn] :=
  ⟨rfl, rfl⟩

/-- C4 amended: the empty-payload rejection lives in the adapter; its
normalizePayload throws the BadRequest error before the service is invoked,
so the create route rejects every lodash-empty payload with no store call
issued. -/
theorem C4_adapter_rejects_empty_payload (model : Model) (typeKey singularKey : String)
    (payload : JsVal) (s : Store) (h : lodashIsEmpty payload = true) :
    adapterCreate model typeKey singularKey payload s =
      { result := Except.error (RestError.badRequest "No data send to the server")
        store := s
        trace := [] } := by
  simp [adapterCreate, normalizePayload, h]

/-- C4 amended, witness: the adapter rejects the empty object payload for the
Foo type without issuing a store call. -/
theorem C4_adapter_rejects_empty_payload_witness :
    adapterCreate fooModel "foos" "foo" (JsVal.obj []) fooStore =
      { result := Except.error (RestError.badRequest "No data send to the server")
        store := fooStore
        trace := [] } :=
  C4_adapter_rejects_empty_payload fooModel "foos" "foo" (JsVal.obj []) fooStore rfl

/-- C5 counterexample: a creation candidate supplied as a non-array nested
object under the ToMany key Tasks is silently dropped — persist resolves,
no create call for Task ever appears in the trace and the Task table is
left untouched, with no error raised. -/
theorem C5_nonarray_creation_candidate_dropped :
    resultOk (persistExec userModel c5Payload c10Store).result = true ∧
    (persistExec userModel c5Payload c10Store).trace =
      [StoreOp.beginTxn, StoreOp.save "User" true true, StoreOp.commitTxn] ∧
    getTable (persistExec userModel c5Payload c10Store).store "Task" =
      { required := ["name"], rows := [] } :=
  ⟨rfl, rfl, rfl⟩

/-- C6 counterexample: a BelongsTo payload value that is a bare numeric
identifier (a number, not an object) is treated as empty by the lodash
isEmpty guard of persistBelongsTo, so no task is produced at all; persist
resolves with the root instance whose foreign-key attribute was never set. -/
theorem C6_numeric_identifier_yields_no_task :
    persistBelongsTo userAssoc c6Payload = none ∧
    resultOk (persistExec taskModel c6Payload c10Store).result = true ∧
    getField (resultInst (persistExec taskModel c6Payload c10Store).result) "UserId" =
      JsVal.undef :=
  ⟨rfl, rfl, rfl⟩

/-- C6 amended: for a BelongsTo association whose payload value is a bare
non-empty numeric STRING identifier, persistBelongsTo does produce a task,
and that task only sets the foreign-key attribute of the root instance to that
identifier — no store call happens, the trace and the store are untouched,
and the task resolves immediately.  Bare number-typed identifiers never get
this far (see the counterexample): lodash isEmpty holds of numbers, so the
guard returns no task for them. -/
theorem C6_string_identifier_attach (assoc : Association) (data : Obj) (v : String)
    (hval : getField data assoc.asName = JsVal.str v)
    (hne : v.isEmpty = false)
    (hnum : (strToInt? v).isSome = true) :
    (persistBelongsTo assoc data).isSome = true ∧
    ∀ st : ExecSt,
      ((persistBelongsTo assoc data).getD idTask) st =
        ({ st with inst := setField st.inst assoc.identifier (JsVal.str v) },
          Except.ok ()) := by
  have hempty' : lodashIsEmpty (JsVal.str v) = false := by
    simpa [lodashIsEmpty] using hne
  have hempty : lodashIsEmpty (getField data assoc.asName) = false := by
    rw [hval]; exact hempty'
  have hcoerce : (jsToNumber (JsVal.str v)).isSome = true := by
    simp [jsToNumber, jsToNumberAtom, hne, hnum]
  constructor
  · simp [persistBelongsTo, hempty]
  · intro st
    simp [persistBelongsTo, hempty, hempty', hval, hcoerce]

/-- C6 amended, witness: attaching an existing user to a task by the numeric
string identifier 7 produces a task which sets UserId to that identifier on
the instance and does nothing else. -/
theorem C6_string_identifier_attach_witness :
    (persistBelongsTo userAssoc c6StrPayload).isSome = true ∧
    ((persistBelongsTo userAssoc c6StrPayload).getD idTask) stW =
      ({ stW with inst := setField stW.inst "UserId" (JsVal.str "7") },
        Except.ok ()) :=
  ⟨(C6_string_identifier_attach userAssoc c6StrPayload "7" rfl rfl rfl).1,
   (C6_string_identifier_attach userAssoc c6StrPayload "7" rfl rfl rfl).2 stW⟩

/-- C7 counterexample: deleting an absent record rejects with a BadRequest
error, not a NotFound one, and so does requesting a sub-resource type that
matches no declared association — both against the claimed NotFound
classification. -/
theorem C7_absent_delete_and_unknown_subresource_are_badrequest :
    (deleteMethod userModel (JsVal.num 10) c7Store).1 =
      Except.error (RestError.badRequest "Can not delete model as it does not exists") ∧
    failsNotFound (deleteMethod userModel (JsVal.num 10) c7Store).1 = false ∧
    resolveSubresourceInstance userModel (JsVal.num 1) "Foo" c7Store =
      Except.error (RestError.badRequest "No subresource with name found") ∧
    failsNotFound (resolveSubresourceInstance userModel (JsVal.num 1) "Foo" c7Store) =
      false :=
  ⟨rfl, rfl, rfl, rfl⟩

/-- C7 amended: delete on an absent id and a sub-resource request matching no
declared association both fail with BadRequest-kind errors; only the
sub-resource lookup whose association matches but whose parent instance is
absent fails with a NotFound-kind error. -/
theorem C7_error_kinds (model : Model) (idv : JsVal) (s : Store) (subName : String) :
    (findRowByPk model.name model.primaryKeyAttribute idv s = none →
      (deleteMethod model idv s).1 =
        Except.error (RestError.badRequest "Can not delete model as it does not exists")) ∧
    (model.associations.find? (fun a => a.targetName == subName) = none →
      resolveSubresourceInstance model idv subName s =
        Except.error (RestError.badRequest "No subresource with name found")) ∧
    (∀ assoc : Association,
      model.associations.find? (fun a => a.targetName == subName) = some assoc →
      findRowByPk model.name model.primaryKeyAttribute idv s = none →
      resolveSubresourceInstance model idv subName s =
        Except.error (RestError.notFound "Can not find model")) := by
  refine ⟨?_, ?_, ?_⟩
  · intro h
    simp [deleteMethod, h]
  · intro h
    simp [resolveSubresourceInstance, h]
  · intro assoc h1 h2
    simp [resolveSubresourceInstance, h1, h2]

/-- C7 amended, witness: the three error kinds at concrete inputs — absent
user 10 deleted, unknown sub-resource Foo, and the Task sub-resource of the
absent user 1. -/
theorem C7_error_kinds_witness :
    (deleteMethod userModel (JsVal.num 10) c7Store).1 =
      Except.error (RestError.badRequest "Can not delete model as it does not exists") ∧
    resolveSubresourceInstance userModel (JsVal.num 10) "Foo" c7Store =
      Except.error (RestError.badRequest "No subresource with name found") ∧
    resolveSubresourceInstance userModel (JsVal.num 10) "Task" c7Store =
      Except.error (RestError.notFound "Can not find model") :=
  ⟨(C7_error_kinds userModel (JsVal.num 10) c7Store "Foo").1 rfl,
   (C7_error_kinds userModel (JsVal.num 10) c7Store "Foo").2.1 rfl,
   (C7_error_kinds userModel (JsVal.num 10) c7Store "Task").2.2 tasksAssoc rfl rfl⟩

/-- C8 counterexample: when the unit of work fails and the rollback also
fails, the wrapper rejects with a DatabaseError built from the rollback
failure alone — the original failure is not contained in it, against the
claim that the DatabaseError wraps both. -/
theorem C8_rollback_failure_drops_original_error :
    transactionMethod (Except.error (RestError.storeError "original failure"))
        (Except.error (RestError.storeError "rollback failure")) =
      Except.error (RestError.databaseError (RestError.storeError "rollback failure")
        "Transaction rollback failure") ∧
    errContains
      (RestError.databaseError (RestError.storeError "rollback failure")
        "Transaction rollback failure")
      (RestError.storeError "original failure") = false :=
  ⟨rfl, by decide⟩

/-- C8 amended: a failed unit of work whose rollback succeeds rejects with the
original error unchanged; a failed unit of work whose rollback also fails
rejects with a DatabaseError wrapping only the rollback failure. -/
theorem C8_transaction_failure_propagation (e e2 : RestError) :
    transactionMethod (Except.error e) (Except.ok ()) = Except.error e ∧
    transactionMethod (Except.error e) (Except.error e2) =
      Except.error (RestError.databaseError e2 "Transaction rollback failure") :=
  ⟨rfl, rfl⟩

/-- C9 counterexample: populate writes through the reference of the caller — the
heap cell holding the query object changes, and the very same reference
comes back, so no fresh query value is returned and the object of the caller is
mutated in place. -/
theorem C9_populate_mutates_caller_query :
    populateRef taskModel 0 q0Heap =
      (0, [(0, { includeList := some [{ modelName := "User", asName := "User" }] })]) ∧
    (populateRef taskModel 0 q0Heap).2 ≠ q0Heap :=
  ⟨rfl, by decide⟩

/-- C9 amended: populate appends exactly one include entry (target type plus
relation alias) per declared association — in declaration order, without
de-duplication and without recursing into the targets — onto whatever
include list the query already carries, but it does so by mutating the
query object of the caller in place and returning the same reference rather
than a new query value. -/
theorem C9_populate_appends_in_place (model : Model) (r : Nat) (h : QueryHeap)
    (q : Query) (hq : h.find? (fun rq => rq.1 == r) = some (r, q)) :
    populateRef model r h =
      (r, heapSet h r
        { includeList :=
            some ((q.includeList.getD []) ++ model.associations.map (fun a =>
              { modelName := a.targetName, asName := a.asName })) }) := by
  simp [populateRef, hq]

/-- C9 amended, witness: populating the Task query at reference 0 appends the
single User include entry in place. -/
theorem C9_populate_appends_in_place_witness :
    populateRef taskModel 0 q0Heap =
      (0, heapSet q0Heap 0
        { includeList := some [{ modelName := "User", asName := "User" }] }) :=
  C9_populate_appends_in_place taskModel 0 q0Heap { includeList := none } rfl

theorem updateAssociation_frame {ks : List String} {tname : String} {data : Obj}
    {st : ExecSt} (hdata : ∀ kv ∈ data, ks.contains kv.1 = true) :
    dbOutsideEq ks ((updateAssociation tname data st).1).db st.db := by
  constructor
  · rfl
  · exact tablesOutside_storeUpdate hdata

theorem persistAssociation_update {assoc : Association} {h : Obj} {st : ExecSt}
    (hid : isUndef (getField h assoc.targetKey) = false) :
    persistAssociation assoc (JsVal.obj h) st = updateAssociation assoc.targetName h st := by
  cases hgf : getField h assoc.targetKey <;>
    simp [persistAssociation, hgf] <;>
    simp [hgf, isUndef] at hid

theorem hasManyEntryTask_obj_state (assoc : Association) (h : Obj) (st : ExecSt) :
    ((hasManyEntryTask assoc (JsVal.obj h) st).1) =
      ((persistAssociation assoc
        (JsVal.obj (setField h assoc.identifier (getField st.inst assoc.sourceKey)))
        st).1) := by
  have hno : (jsToNumber (JsVal.obj h)).isSome = false := rfl
  simp only [hasManyEntryTask, hno, Bool.false_eq_true, if_false]
  rcases hpa : persistAssociation assoc
    (JsVal.obj (setField h assoc.identifier (getField st.inst assoc.sourceKey))) st
    with ⟨st', r⟩
  cases r <;> simp [hpa]

/-- C3: attach-only relation entries never mutate the target rows outside the
key attributes.  For a ToMany entry given as a bare coercible identifier the
task only issues the set-accessor call, which touches nothing but the
foreign-key attribute of target rows; for a ToMany entry that is an object
carrying only the primary key the dispatched update writes only that key and
the foreign key; and for a ToOne value that is an object carrying only the
primary key the store effect of the produced task is the same key-only update,
every other change being the foreign-key assignment on the root instance.
In each case the store content outside the primary-key and
foreign-key attributes is unchanged, in the durable state and in the
transaction view alike. -/
theorem C3_attach_only_frame :
    (∀ (assoc : Association) (v : JsVal) (st : ExecSt),
      (jsToNumber v).isSome = true →
      dbOutsideEq [assoc.targetKey, assoc.identifier]
        ((hasManyEntryTask assoc v st).1).db st.db) ∧
    (∀ (assoc : Association) (v : JsVal) (st : ExecSt),
      isUndef v = false →
      (assoc.identifier == assoc.targetKey) = false →
      dbOutsideEq [assoc.targetKey, assoc.identifier]
        ((hasManyEntryTask assoc (JsVal.obj [(assoc.targetKey, v)]) st).1).db st.db) ∧
    (∀ (assoc : Association) (data : Obj) (v : JsVal) (st : ExecSt),
      getField data assoc.asName = JsVal.obj [(assoc.targetKey, v)] →
      isUndef v = false →
      (assoc.identifier == assoc.targetKey) = false →
      (persistBelongsTo assoc data).isSome = true ∧
      dbOutsideEq [assoc.targetKey, assoc.identifier]
        ((((persistBelongsTo assoc data).getD idTask) st).1).db st.db) := by
  have hcontains_id : ∀ assoc : Association,
      ([assoc.targetKey, assoc.identifier].contains assoc.identifier) = true := by
    intro assoc; simp
  have hcontains_tk : ∀ assoc : Association,
      ([assoc.targetKey, assoc.identifier].contains assoc.targetKey) = true := by
    intro assoc; simp
  refine ⟨?_, ?_, ?_⟩
  · intro assoc v st hnum
    simp only [hasManyEntryTask, hnum, if_true]
    constructor
    · exact tablesOutside_storeSet (hcontains_id assoc)
    · exact tablesOutside_storeSet (hcontains_id assoc)
  · intro assoc v st hv hii
    have hner : assoc.targetKey ≠ assoc.identifier :=
      Ne.symm (ne_of_beq_false hii)
    have hdata : ∀ kv ∈ setField [(assoc.targetKey, v)] assoc.identifier
        (getField st.inst assoc.sourceKey),
        [assoc.targetKey, assoc.identifier].contains kv.1 = true := by
      intro kv hkv
      rcases mem_setField hkv with h1 | h1
      · rw [h1]; exact hcontains_id assoc
      · simp at h1
        subst h1
        simpa using hcontains_tk assoc
    have hid : isUndef (getField (setField [(assoc.targetKey, v)] assoc.identifier
        (getField st.inst assoc.sourceKey)) assoc.targetKey) = false := by
      rw [getField_setField_ne hner]
      have hgf : getField [(assoc.targetKey, v)] assoc.targetKey = v := by
        simp [getField_cons]
      rw [hgf]; exact hv
    rw [hasManyEntryTask_obj_state, persistAssociation_update hid]
    exact updateAssociation_frame hdata
  · intro assoc data v st hval hv hii
    have hempty : lodashIsEmpty (getField data assoc.asName) = false := by
      rw [hval]; rfl
    refine ⟨by simp [persistBelongsTo, hempty], ?_⟩
    have hdata : ∀ kv ∈ ([(assoc.targetKey, v)] : Obj),
        [assoc.targetKey, assoc.identifier].contains kv.1 = true := by
      intro kv hkv
      simp at hkv
      subst hkv
      simpa using hcontains_tk assoc
    have hid : isUndef (getField [(assoc.targetKey, v)] assoc.targetKey) = false := by
      have hgf : getField [(assoc.targetKey, v)] assoc.targetKey = v := by
        simp [getField_cons]
      rw [hgf]; exact hv
    have hno : (jsToNumber (JsVal.obj [(assoc.targetKey, v)])).isSome = false := rfl
    have hempty' : lodashIsEmpty (JsVal.obj [(assoc.targetKey, v)]) = false := rfl
    simp only [persistBelongsTo, hempty, hempty', Bool.false_eq_true, if_false,
      Option.getD_some, hval, hno]
    rw [persistAssociation_update hid]
    rcases hu : updateAssociation assoc.targetName [(assoc.targetKey, v)] st with ⟨st', r⟩
    have hframe : dbOutsideEq [assoc.targetKey, assoc.identifier] st'.db st.db := by
      have h' := @updateAssociation_frame [assoc.targetKey, assoc.identifier]
        assoc.targetName [(assoc.targetKey, v)] st hdata
      rw [hu] at h'
      exact h'
    cases r with
    | ok record =>
      rcases hkr : hashKeyOrRecordGet [(assoc.targetKey, v)] assoc.targetKey record
        with v' | e <;> simp [hkr] <;> exact hframe
    | error e => simpa using hframe

/-- C3 witness: the frame property at concrete inputs — attaching task 5 by
bare identifier, attaching task 7 by id-only object, and referencing user 3
from a task payload by id-only object all leave the store outside the id
and UserId attributes untouched. -/
theorem C3_attach_only_frame_witness :
    dbOutsideEq ["id", "UserId"]
      ((hasManyEntryTask tasksAssoc (JsVal.num 5) stW).1).db stW.db ∧
    dbOutsideEq ["id", "UserId"]
      ((hasManyEntryTask tasksAssoc (JsVal.obj [("id", JsVal.num 7)]) stW).1).db stW.db ∧
    ((persistBelongsTo userAssoc c3Payload).isSome = true ∧
     dbOutsideEq ["id", "UserId"]
       ((((persistBelongsTo userAssoc c3Payload).getD idTask) stW).1).db stW.db) :=
  ⟨C3_attach_only_frame.1 tasksAssoc (JsVal.num 5) stW rfl,
   C3_attach_only_frame.2.1 tasksAssoc (JsVal.num 7) stW rfl rfl,
   C3_attach_only_frame.2.2 userAssoc c3Payload (JsVal.num 3) stW rfl rfl rfl⟩

theorem mapTable_id {tname : String} {f : Table → Table} :
    ∀ s : Store, (∀ nt ∈ s, nt.1 = tname → f nt.2 = nt.2) → mapTable s tname f = s := by
  intro s
  induction s with
  | nil => intro _; rfl
  | cons nt rest ih =>
    intro hh
    have hstep : mapTable (nt :: rest) tname f =
        (if (nt.1 == tname) = true then (nt.1, f nt.2) else nt) ::
          mapTable rest tname f := rfl
    rw [hstep, ih (fun nt' hm => hh nt' (List.mem_cons_of_mem _ hm))]
    by_cases hn : (nt.1 == tname) = true
    · rw [if_pos hn, hh nt (List.mem_cons_self _ _) (eq_of_beq hn)]
    · rw [if_neg hn]

theorem storeUpdate_nomatch {tname wk : String} {data : Obj} {idv : JsVal} {s : Store}
    (h : ∀ nt ∈ s, nt.1 = tname → ∀ row ∈ nt.2.rows,
      pkEq (getField row wk) idv = false) :
    storeUpdate tname wk data idv s = (0, s) := by
  have htab : ∀ row ∈ (getTable s tname).rows, pkEq (getField row wk) idv = false := by
    cases hf : s.find? (fun nt => nt.1 == tname) with
    | none => intro row hrow; simp [getTable, hf] at hrow
    | some nt =>
      intro row hrow
      have hmem := List.mem_of_find?_eq_some hf
      have hpred := List.find?_some hf
      exact h nt hmem (eq_of_beq hpred) row (by simpa [getTable, hf] using hrow)
  have hcount : ((getTable s tname).rows.filter
      (fun row => pkEq (getField row wk) idv)).length = 0 := by
    rw [List.filter_eq_nil_iff.mpr (by intro row hrow; simp [htab row hrow])]
    rfl
  have hmap : mapTable s tname (fun t =>
      { t with rows := t.rows.map (fun row =>
        if pkEq (getField row wk) idv = true then mergeObj row data else row) }) = s := by
    apply mapTable_id
    intro nt hm hname
    have hcong : ∀ row ∈ nt.2.rows,
        (if pkEq (getField row wk) idv = true then mergeObj row data else row) =
          id row := by
      intro row hrow
      simp [h nt hm hname row hrow]
    rw [List.map_congr_left hcong, List.map_id]
  unfold storeUpdate
  refine Prod.ext ?_ ?_
  · simpa using hcount
  · simpa using hmap

/-- C10: lenient nonexistent-id attach.  A ToMany entry given as an object
whose primary key (the literal id attribute) matches no row of the target
type runs through the dispatched update handler, whose UPDATE matches zero
rows and resolves with affected count zero instead of an error: the task
succeeds, the store is untouched, and only the update call is traced — the
entry is silently omitted.  Concretely, persisting a new user with a Tasks
list holding only the nonexistent id 5 against an empty Task table commits,
creates the user and attaches nothing, exactly as the test of the repository
expects. -/
theorem C10_lenient_nonexistent_id :
    (∀ (assoc : Association) (h : Obj) (st : ExecSt) (idv : JsVal),
      assoc.targetKey = "id" →
      (assoc.identifier == "id") = false →
      getField h "id" = idv →
      isUndef idv = false →
      (∀ nt ∈ st.db.view, nt.1 = assoc.targetName →
        ∀ row ∈ nt.2.rows, pkEq (getField row "id") idv = false) →
      hasManyEntryTask assoc (JsVal.obj h) st =
        ({ st with trace := st.trace ++
            [StoreOp.update assoc.targetName
              (setField h assoc.identifier (getField st.inst assoc.sourceKey))
              idv true] },
          Except.ok ())) ∧
    (persistExec userModel c10Payload c10Store).result =
      Except.ok [("name", JsVal.str "New User"), ("id", JsVal.num 1)] ∧
    (persistExec userModel c10Payload c10Store).store =
      [("User", { required := ["name"],
                  rows := [[("name", JsVal.str "New User"), ("id", JsVal.num 1)]] }),
       ("Task", { required := ["name"], rows := [] })] ∧
    (persistExec userModel c10Payload c10Store).trace =
      [StoreOp.beginTxn, StoreOp.save "User" true true,
       StoreOp.update "Task" [("id", JsVal.num 5), ("UserId", JsVal.num 1)]
         (JsVal.num 5) true,
       StoreOp.commitTxn] := by
  refine ⟨?_, rfl, rfl, rfl⟩
  intro assoc h st idv hpk hii hid hu hnomatch
  have hner : ("id" : String) ≠ assoc.identifier := by
    intro hcontra
    rw [← hcontra] at hii
    simp at hii
  have hgf : getField (setField h assoc.identifier
      (getField st.inst assoc.sourceKey)) "id" = idv := by
    rw [getField_setField_ne hner, hid]
  have hno : (jsToNumber (JsVal.obj h)).isSome = false := rfl
  simp only [hasManyEntryTask, hno, Bool.false_eq_true, if_false]
  have hupd : persistAssociation assoc
      (JsVal.obj (setField h assoc.identifier (getField st.inst assoc.sourceKey))) st =
      updateAssociation assoc.targetName
        (setField h assoc.identifier (getField st.inst assoc.sourceKey)) st := by
    apply persistAssociation_update
    rw [hpk, hgf]
    exact hu
  rw [hupd]
  unfold updateAssociation
  rw [hgf]
  have hsu := @storeUpdate_nomatch assoc.targetName "id"
    (setField h assoc.identifier (getField st.inst assoc.sourceKey)) idv
    st.db.view hnomatch
  simp only [hsu]

/-- C10 witness: attaching nonexistent task 5 to the saved root user issues
one update call matching zero rows and succeeds, leaving the store
untouched. -/
theorem C10_lenient_nonexistent_id_witness :
    hasManyEntryTask tasksAssoc (JsVal.obj [("id", JsVal.num 5)]) stW =
      ({ stW with trace :=
          [StoreOp.update "Task" [("id", JsVal.num 5), ("UserId", JsVal.num 1)]
            (JsVal.num 5) true] },
        Except.ok ()) :=
  C10_lenient_nonexistent_id.1 tasksAssoc [("id", JsVal.num 5)] stW (JsVal.num 5)
    rfl rfl rfl rfl (by decide)

theorem createAssociation_trace (tname pk : String) (data : Obj) (st : ExecSt) :
    ((createAssociation tname pk data st).1).trace =
      st.trace ++ [StoreOp.create tname data true] := by
  unfold createAssociation
  cases hc : storeCreate tname pk data st.db.view with
  | ok rs => simp [hc]
  | error e => simp [hc]

theorem updateAssociation_trace (tname : String) (data : Obj) (st : ExecSt) :
    ((updateAssociation tname data st).1).trace =
      st.trace ++ [StoreOp.update tname data (getField data "id") true] := rfl

theorem persistAssociation_traceExtends (assoc : Association) (hash : JsVal)
    (st : ExecSt) :
    ∃ tl, ((persistAssociation assoc hash st).1).trace = st.trace ++ tl := by
  cases hash with
  | obj h =>
    cases hgf : getField h assoc.targetKey
    case undef =>
      refine ⟨[StoreOp.create assoc.targetName h true], ?_⟩
      simp only [persistAssociation, hgf]
      exact createAssociation_trace assoc.targetName assoc.targetKey h st
    all_goals
      refine ⟨[StoreOp.update assoc.targetName h (getField h "id") true], ?_⟩
      simp only [persistAssociation, hgf]
      rfl
  | undef => exact ⟨[], by simp [persistAssociation]⟩
  | null => exact ⟨[], by simp [persistAssociation]⟩
  | bool b => exact ⟨[], by simp [persistAssociation]⟩
  | num n => exact ⟨[], by simp [persistAssociation]⟩
  | str s' => exact ⟨[], by simp [persistAssociation]⟩
  | arr l => exact ⟨[], by simp [persistAssociation]⟩

theorem traceExtends_saveTask (model : Model) (data : Obj) :
    traceExtends (saveTask model data) := by
  intro st
  unfold saveTask
  by_cases hn : jsFalsy (getField data "id") = true
  · simp only [hn, if_true]
    cases hc : storeCreate model.name model.primaryKeyAttribute st.inst st.db.view with
    | ok rs => exact ⟨[StoreOp.save model.name true true], by simp [hc]⟩
    | error e => exact ⟨[StoreOp.save model.name true true], by simp [hc]⟩
  · simp only [hn, Bool.false_eq_true, if_false]
    exact ⟨[StoreOp.save model.name (jsFalsy (getField data "id")) true], by simp [hn]⟩

theorem traceExtends_hasManyEntry (assoc : Association) (hash : JsVal) :
    traceExtends (hasManyEntryTask assoc hash) := by
  intro st
  by_cases hn : (jsToNumber hash).isSome = true
  · exact ⟨[StoreOp.setAccessor assoc.targetName [hash] false],
      by simp [hasManyEntryTask, hn]⟩
  · cases hash with
    | obj h =>
      rw [hasManyEntryTask_obj_state]
      exact persistAssociation_traceExtends assoc _ st
    | undef => exact ⟨[], by simp [hasManyEntryTask, hn]⟩
    | null => simp [jsToNumber, jsToNumberAtom] at hn
    | bool b => simp [jsToNumber, jsToNumberAtom] at hn
    | num n => simp [jsToNumber, jsToNumberAtom] at hn
    | str s' =>
      exact ⟨[], by simp [hasManyEntryTask, hn]⟩
    | arr l =>
      exact ⟨[], by simp [hasManyEntryTask, hn]⟩

theorem runPar_state (t : TaskFun) (ts : List TaskFun) (st : ExecSt) :
    (runPar (t :: ts) st).1 = (runPar ts ((t st).1)).1 := by
  rcases ht : t st with ⟨st', r⟩
  cases r with
  | ok u => simp [runPar, ht]
  | error e => simp [runPar, ht]

theorem traceExtends_runPar (ts : List TaskFun)
    (h : ∀ t ∈ ts, traceExtends t) : traceExtends (runPar ts) := by
  induction ts with
  | nil => intro st; exact ⟨[], by simp [runPar]⟩
  | cons t ts ih =>
    intro st
    have hhead := h t (List.mem_cons_self _ _)
    have htail := ih (fun t' hm => h t' (List.mem_cons_of_mem _ hm))
    obtain ⟨tl1, h1⟩ := hhead st
    obtain ⟨tl2, h2⟩ := htail ((t st).1)
    refine ⟨tl1 ++ tl2, ?_⟩
    rw [runPar_state, h2, h1, List.append_assoc]

theorem runSeq_state (t : TaskFun) (ts : List TaskFun) (st : ExecSt) :
    (runSeq (t :: ts) st).1 =
      (match (t st).2 with
        | Except.ok _ => (runSeq ts ((t st).1)).1
        | Except.error _ => (t st).1) := by
  rcases ht : t st with ⟨st', r⟩
  cases r with
  | ok u => simp [runSeq, ht]
  | error e => simp [runSeq, ht]

theorem traceExtends_runSeq (ts : List TaskFun)
    (h : ∀ t ∈ ts, traceExtends t) : traceExtends (runSeq ts) := by
  induction ts with
  | nil => intro st; exact ⟨[], by simp [runSeq]⟩
  | cons t ts ih =>
    intro st
    have hhead := h t (List.mem_cons_self _ _)
    have htail := ih (fun t' hm => h t' (List.mem_cons_of_mem _ hm))
    obtain ⟨tl1, h1⟩ := hhead st
    rw [runSeq_state]
    cases hr : (t st).2 with
    | ok u =>
      obtain ⟨tl2, h2⟩ := htail ((t st).1)
      exact ⟨tl1 ++ tl2, by rw [h2, h1, List.append_assoc]⟩
    | error e => exact ⟨tl1, h1⟩

theorem traceExtends_belongsTo (assoc : Association) (data : Obj) (t : TaskFun)
    (h : persistBelongsTo assoc data = some t) : traceExtends t := by
  unfold persistBelongsTo at h
  by_cases he : lodashIsEmpty (getField data assoc.asName) = true
  · simp [he] at h
  · simp only [he, Bool.false_eq_true, if_false, Option.some.injEq] at h
    subst h
    intro st
    by_cases hn : (jsToNumber (getField data assoc.asName)).isSome = true
    · exact ⟨[], by simp [hn]⟩
    · simp only [hn, Bool.false_eq_true, if_false]
      rcases hpa : persistAssociation assoc (getField data assoc.asName) st with ⟨st', r⟩
      obtain ⟨tl, htl⟩ := persistAssociation_traceExtends assoc
        (getField data assoc.asName) st
      rw [hpa] at htl
      cases r with
      | ok record =>
        cases hh : getField data assoc.asName with
        | obj hobj =>
          cases hkr : hashKeyOrRecordGet hobj assoc.targetKey record with
          | ok v => exact ⟨tl, by simp [hpa, hh, hkr]; exact htl⟩
          | error e => exact ⟨tl, by simp [hpa, hh, hkr]; exact htl⟩
        | undef => exact ⟨tl, by simp [hpa, hh]; simpa [hh] using htl⟩
        | null => exact ⟨tl, by simp [hpa, hh]; simpa [hh] using htl⟩
        | bool b => exact ⟨tl, by simp [hpa, hh]; simpa [hh] using htl⟩
        | num n => exact ⟨tl, by simp [hpa, hh]; simpa [hh] using htl⟩
        | str sv => exact ⟨tl, by simp [hpa, hh]; simpa [hh] using htl⟩
        | arr l => exact ⟨tl, by simp [hpa, hh]; simpa [hh] using htl⟩
      | error e => exact ⟨tl, by simp [hpa]; exact htl⟩

theorem persistHasMany_eq (assoc : Association) (data : Obj) (t : TaskFun)
    (h : persistHasMany assoc data = some t) :
    ∃ records, getField data assoc.asName = JsVal.arr records ∧
      records ≠ [] ∧
      t = fun st => runPar (records.map (hasManyEntryTask assoc)) st := by
  unfold persistHasMany at h
  by_cases he : lodashIsEmpty (getField data assoc.asName) = true
  · simp [he] at h
  · simp only [he, Bool.false_eq_true, if_false] at h
    cases hh : getField data assoc.asName with
    | arr records =>
      rw [hh] at h
      simp only [Option.some.injEq] at h
      refine ⟨records, rfl, ?_, h.symm⟩
      intro hcontra
      subst hcontra
      rw [hh] at he
      simp [lodashIsEmpty] at he
    | undef => rw [hh] at h; simp at h
    | null => rw [hh] at h; simp at h
    | bool b => rw [hh] at h; simp at h
    | num n => rw [hh] at h; simp at h
    | str sv => rw [hh] at h; simp at h
    | obj o => rw [hh] at h; simp at h

theorem traceExtends_hasMany (assoc : Association) (data : Obj) (t : TaskFun)
    (h : persistHasMany assoc data = some t) : traceExtends t := by
  obtain ⟨records, _, _, ht⟩ := persistHasMany_eq assoc data t h
  subst ht
  intro st
  exact traceExtends_runPar (records.map (hasManyEntryTask assoc))
    (by
      intro t' hm
      obtain ⟨hash, _, hh⟩ := List.mem_map.mp hm
      rw [← hh]
      exact traceExtends_hasManyEntry assoc hash) st

theorem assocHandler_extends (assoc : Association) (data : Obj) (t : TaskFun)
    (h : assocHandler assoc data = some t) : traceExtends t := by
  unfold assocHandler at h
  by_cases h1 : assoc.associationType = "BelongsTo"
  · rw [if_pos h1] at h
    exact traceExtends_belongsTo assoc data t h
  · rw [if_neg h1] at h
    by_cases h2 : assoc.associationType = "HasMany"
    · rw [if_pos h2] at h
      exact traceExtends_hasMany assoc data t h
    · rw [if_neg h2] at h
      exact absurd h (by simp)

theorem foldl_taskStep_mem_acc (data : Obj) :
    ∀ (l : List Association) (acc : List (TaskDesc × TaskFun))
      (x : TaskDesc × TaskFun), x ∈ acc → x ∈ l.foldl (taskStep data) acc := by
  intro l
  induction l with
  | nil => intro acc x hx; simpa using hx
  | cons a l ih =>
    intro acc x hx
    apply ih
    unfold taskStep
    cases hh : assocHandler a data with
    | none => exact hx
    | some task =>
      by_cases hb : (a.associationType == "BelongsTo") = true
      · simp only [hb, if_true]
        exact List.mem_cons_of_mem _ hx
      · simp only [hb, Bool.false_eq_true, if_false]
        exact List.mem_append_left _ hx

theorem foldl_taskStep_mem (data : Obj) :
    ∀ (l : List Association) (acc : List (TaskDesc × TaskFun)) (a : Association)
      (t : TaskFun), a ∈ l → assocHandler a data = some t →
      ∃ d, (d, t) ∈ l.foldl (taskStep data) acc := by
  intro l
  induction l with
  | nil => intro acc a t ha; simp at ha
  | cons a' l ih =>
    intro acc a t ha hh
    rcases List.mem_cons.mp ha with he | hm
    · subst he
      refine ⟨if a.associationType == "BelongsTo" then TaskDesc.toOne a.asName
        else TaskDesc.toMany a.asName, ?_⟩
      rw [List.foldl_cons]
      apply foldl_taskStep_mem_acc
      unfold taskStep
      rw [hh]
      by_cases hb : (a.associationType == "BelongsTo") = true
      · simp only [hb, if_true]
        exact List.mem_cons_self _ _
      · simp only [hb, Bool.false_eq_true, if_false]
        exact List.mem_append_right _ (List.mem_cons_self _ _)
    · exact ih (taskStep data acc a') a t hm hh

theorem buildTasks_extends (model : Model) (data : Obj) :
    ∀ x ∈ buildTasks model data, traceExtends x.2 := by
  unfold buildTasks
  have hgen : ∀ (l : List Association) (acc : List (TaskDesc × TaskFun)),
      (∀ x ∈ acc, traceExtends x.2) →
      ∀ x ∈ l.foldl (taskStep data) acc, traceExtends x.2 := by
    intro l
    induction l with
    | nil => intro acc hacc x hx; exact hacc x (by simpa using hx)
    | cons a l ih =>
      intro acc hacc x hx
      refine ih (taskStep data acc a) ?_ x hx
      intro y hy
      unfold taskStep at hy
      cases hh : assocHandler a data with
      | none => rw [hh] at hy; exact hacc y hy
      | some task =>
        rw [hh] at hy
        by_cases hb : (a.associationType == "BelongsTo") = true
        · simp only [hb, if_true] at hy
          rcases List.mem_cons.mp hy with he | hm
          · subst he; exact assocHandler_extends a data task hh
          · exact hacc y hm
        · simp only [hb, Bool.false_eq_true, if_false] at hy
          rcases List.mem_append.mp hy with hm | hm
          · exact hacc y hm
          · have : y = (TaskDesc.toMany a.asName, task) := by simpa using hm
            subst this
            exact assocHandler_extends a data task hh
  apply hgen
  intro x hx
  have : x = (TaskDesc.saveRoot, saveTask model data) := by simpa using hx
  subst this
  exact traceExtends_saveTask model data

theorem traceHasCreateFor_append (tname : String) (l l' : List StoreOp) :
    traceHasCreateFor tname (l ++ l') =
      (traceHasCreateFor tname l || traceHasCreateFor tname l') := by
  simp [traceHasCreateFor, List.any_append]

theorem hasManyEntry_hasCreate (assoc : Association) (h : Obj)
    (hnopk : getField h assoc.targetKey = JsVal.undef)
    (hii : (assoc.identifier == assoc.targetKey) = false) :
    ∀ st, traceHasCreateFor assoc.targetName
      ((hasManyEntryTask assoc (JsVal.obj h) st).1).trace = true := by
  intro st
  rw [hasManyEntryTask_obj_state]
  have hner : assoc.targetKey ≠ assoc.identifier := Ne.symm (ne_of_beq_false hii)
  have hgf : getField (setField h assoc.identifier
      (getField st.inst assoc.sourceKey)) assoc.targetKey = JsVal.undef := by
    rw [getField_setField_ne hner, hnopk]
  simp only [persistAssociation, hgf]
  rw [createAssociation_trace, traceHasCreateFor_append]
  simp [traceHasCreateFor]

theorem runPar_hasCreate (tname : String) :
    ∀ ts : List TaskFun, (∀ t ∈ ts, traceExtends t) →
    ∀ t0 ∈ ts, (∀ st, traceHasCreateFor tname ((t0 st).1).trace = true) →
    ∀ st, traceHasCreateFor tname ((runPar ts st).1).trace = true := by
  intro ts
  induction ts with
  | nil => intro _ t0 hmem; simp at hmem
  | cons t ts ih =>
    intro hall t0 hmem h0 st
    have htail : ∀ t' ∈ ts, traceExtends t' :=
      fun t' hm => hall t' (List.mem_cons_of_mem _ hm)
    rw [runPar_state]
    rcases List.mem_cons.mp hmem with he | hm
    · subst he
      obtain ⟨tl, htl⟩ := traceExtends_runPar ts htail ((t0 st).1)
      rw [htl, traceHasCreateFor_append, h0 st, Bool.true_or]
    · exact ih htail t0 hm h0 ((t st).1)

theorem runSeq_hasCreate (tname : String) :
    ∀ ts : List TaskFun, (∀ t ∈ ts, traceExtends t) →
    ∀ t0 ∈ ts, (∀ st, traceHasCreateFor tname ((t0 st).1).trace = true) →
    ∀ st, (runSeq ts st).2 = Except.ok () →
      traceHasCreateFor tname ((runSeq ts st).1).trace = true := by
  intro ts
  induction ts with
  | nil => intro _ t0 hmem; simp at hmem
  | cons t ts ih =>
    intro hall t0 hmem h0 st hok
    have htail : ∀ t' ∈ ts, traceExtends t' :=
      fun t' hm => hall t' (List.mem_cons_of_mem _ hm)
    rcases ht : t st with ⟨st', r⟩
    cases r with
    | error e =>
      have : runSeq (t :: ts) st = (st', Except.error e) := by simp [runSeq, ht]
      rw [this] at hok
      exact absurd hok (by simp)
    | ok u =>
      have hrun : runSeq (t :: ts) st = runSeq ts st' := by simp [runSeq, ht]
      rw [hrun] at hok
      rw [hrun]
      rcases List.mem_cons.mp hmem with he | hm
      · subst he
        obtain ⟨tl, htl⟩ := traceExtends_runSeq ts htail st'
        rw [htl, traceHasCreateFor_append]
        have hst' : traceHasCreateFor tname st'.trace = true := by
          have hc := h0 st
          rw [ht] at hc
          exact hc
        rw [hst', Bool.true_or]
      · exact ih htail t0 hm h0 st' hok

theorem persistBelongsTo_isSome (assoc : Association) (data : Obj) (h : Obj)
    (hval : getField data assoc.asName = JsVal.obj h) (hne : h ≠ []) :
    (persistBelongsTo assoc data).isSome = true := by
  have hempty : lodashIsEmpty (getField data assoc.asName) = false := by
    rw [hval]
    cases h with
    | nil => exact absurd rfl hne
    | cons a l => rfl
  simp [persistBelongsTo, hempty]

theorem belongsTo_task_hasCreate (assoc : Association) (data : Obj) (h : Obj)
    (t : TaskFun)
    (hval : getField data assoc.asName = JsVal.obj h)
    (hnopk : getField h assoc.targetKey = JsVal.undef)
    (ht : persistBelongsTo assoc data = some t) :
    ∀ st, traceHasCreateFor assoc.targetName ((t st).1).trace = true := by
  unfold persistBelongsTo at ht
  by_cases he : lodashIsEmpty (getField data assoc.asName) = true
  · simp [he] at ht
  · simp only [he, Bool.false_eq_true, if_false, Option.some.injEq] at ht
    subst ht
    intro st
    have hno : (jsToNumber (JsVal.obj h)).isSome = false := rfl
    simp only [hval, hno, Bool.false_eq_true, if_false]
    rcases hpa : persistAssociation assoc (JsVal.obj h) st with ⟨st', r⟩
    have hcr : traceHasCreateFor assoc.targetName st'.trace = true := by
      have hbase : traceHasCreateFor assoc.targetName
          ((persistAssociation assoc (JsVal.obj h) st).1).trace = true := by
        simp only [persistAssociation, hnopk]
        rw [createAssociation_trace, traceHasCreateFor_append]
        simp [traceHasCreateFor]
      rw [hpa] at hbase
      exact hbase
    cases r with
    | ok record =>
      cases hkr : hashKeyOrRecordGet h assoc.targetKey record with
      | ok v => simp [hpa, hkr, hcr]
      | error e => simp [hpa, hkr, hcr]
    | error e => simp [hpa, hcr]

theorem persistExec_hasCreate (model : Model) (data : Obj) (s : Store)
    (tname : String) (t : TaskFun)
    (hmem : t ∈ (buildTasks model data).map Prod.snd)
    (hens : ∀ st, traceHasCreateFor tname ((t st).1).trace = true)
    (hok : resultOk (persistExec model data s).result = true) :
    traceHasCreateFor tname (persistExec model data s).trace = true := by
  have hall : ∀ t' ∈ (buildTasks model data).map Prod.snd, traceExtends t' := by
    intro t' hm
    obtain ⟨x, hx, hxt⟩ := List.mem_map.mp hm
    rw [← hxt]
    exact buildTasks_extends model data x hx
  simp only [persistExec] at hok ⊢
  rcases hrun : runSeq ((buildTasks model data).map Prod.snd)
      { db := { base := s, view := s }
        inst := buildInstance model data
        trace := [StoreOp.beginTxn] } with ⟨stF, r⟩
  cases r with
  | error e =>
    rw [hrun] at hok
    simp [resultOk] at hok
  | ok u =>
    have hok2 : (runSeq ((buildTasks model data).map Prod.snd)
        { db := { base := s, view := s }
          inst := buildInstance model data
          trace := [StoreOp.beginTxn] }).2 = Except.ok () := by
      rw [hrun]
    have hcreate := runSeq_hasCreate tname
      ((buildTasks model data).map Prod.snd) hall t hmem hens
      { db := { base := s, view := s }
        inst := buildInstance model data
        trace := [StoreOp.beginTxn] } hok2
    rw [hrun] at hcreate
    show traceHasCreateFor tname (stF.trace ++ [StoreOp.commitTxn]) = true
    rw [traceHasCreateFor_append, hcreate, Bool.true_or]

/-- C5 amended: creation candidates reached by a produced task are always
attempted, never silently dropped.  First conjunct — every id-less object
inside an ARRAY under a ToMany association key: whenever the persist call
resolves, the trace carries a create call for the target type of the
association, issued by the handler the dispatch resolved (had the attempt
failed, the whole persist would have rejected, since the aggregate task
propagates the first entry rejection).  Second conjunct — a non-empty
id-less object under a ToOne (BelongsTo) association key is likewise run
through the resolved create handler or the whole operation fails.  The
unamended claim fails only for a creation candidate supplied as a NON-ARRAY
nested object under a ToMany key, which persistHasMany drops without
producing a task or an error (see the counterexample). -/
theorem C5_creation_candidates_attempted :
    (∀ (model : Model) (data : Obj) (s : Store) (assoc : Association)
        (records : List JsVal) (h : Obj),
      assoc ∈ model.associations →
      assoc.associationType = "HasMany" →
      (assoc.identifier == assoc.targetKey) = false →
      getField data assoc.asName = JsVal.arr records →
      JsVal.obj h ∈ records →
      getField h assoc.targetKey = JsVal.undef →
      resultOk (persistExec model data s).result = true →
      traceHasCreateFor assoc.targetName (persistExec model data s).trace = true) ∧
    (∀ (model : Model) (data : Obj) (s : Store) (assoc : Association) (h : Obj),
      assoc ∈ model.associations →
      assoc.associationType = "BelongsTo" →
      getField data assoc.asName = JsVal.obj h →
      h ≠ [] →
      getField h assoc.targetKey = JsVal.undef →
      resultOk (persistExec model data s).result = true →
      traceHasCreateFor assoc.targetName (persistExec model data s).trace = true) := by
  constructor
  · intro model data s assoc records h hmem hty hii hval hin hnopk hok
    have hne : records ≠ [] := List.ne_nil_of_mem hin
    have hempty : lodashIsEmpty (JsVal.arr records) = false := by
      cases records with
      | nil => exact absurd rfl hne
      | cons x xs => rfl
    have hHM : persistHasMany assoc data =
        some (fun st => runPar (records.map (hasManyEntryTask assoc)) st) := by
      unfold persistHasMany
      rw [hval]
      simp only [hempty, Bool.false_eq_true, if_false]
    have hAH : assocHandler assoc data =
        some (fun st => runPar (records.map (hasManyEntryTask assoc)) st) := by
      unfold assocHandler
      have h1 : ¬ assoc.associationType = "BelongsTo" := by
        rw [hty]; decide
      rw [if_neg h1, if_pos hty]
      exact hHM
    obtain ⟨d, hd⟩ := foldl_taskStep_mem data model.associations
      [(TaskDesc.saveRoot, saveTask model data)] assoc
      (fun st => runPar (records.map (hasManyEntryTask assoc)) st) hmem hAH
    have htaskmem : (fun st => runPar (records.map (hasManyEntryTask assoc)) st) ∈
        (buildTasks model data).map Prod.snd :=
      List.mem_map.mpr ⟨(d, fun st => runPar (records.map (hasManyEntryTask assoc)) st),
        hd, rfl⟩
    have hens : ∀ st, traceHasCreateFor assoc.targetName
        (((fun st => runPar (records.map (hasManyEntryTask assoc)) st) st).1).trace =
          true := by
      intro st
      exact runPar_hasCreate assoc.targetName (records.map (hasManyEntryTask assoc))
        (by
          intro t' hm
          obtain ⟨hash, _, hh⟩ := List.mem_map.mp hm
          rw [← hh]
          exact traceExtends_hasManyEntry assoc hash)
        (hasManyEntryTask assoc (JsVal.obj h))
        (List.mem_map_of_mem _ hin)
        (hasManyEntry_hasCreate assoc h hnopk hii)
        st
    exact persistExec_hasCreate model data s assoc.targetName
      (fun st => runPar (records.map (hasManyEntryTask assoc)) st) htaskmem hens hok
  · intro model data s assoc h hmem hty hval hne hnopk hok
    have hsome := persistBelongsTo_isSome assoc data h hval hne
    obtain ⟨t, ht⟩ := Option.isSome_iff_exists.mp hsome
    have hAH : assocHandler assoc data = some t := by
      unfold assocHandler
      rw [if_pos hty]
      exact ht
    obtain ⟨d, hd⟩ := foldl_taskStep_mem data model.associations
      [(TaskDesc.saveRoot, saveTask model data)] assoc t hmem hAH
    have htaskmem : t ∈ (buildTasks model data).map Prod.snd :=
      List.mem_map.mpr ⟨(d, t), hd, rfl⟩
    have hens := belongsTo_task_hasCreate assoc data h t hval hnopk ht
    exact persistExec_hasCreate model data s assoc.targetName t htaskmem hens hok

/-- C5 witness: persisting a user whose Tasks array holds one id-less task
object resolves with the create call for Task in the trace, and persisting
a task whose User value is an id-less object resolves with the create call
for User in the trace. -/
theorem C5_creation_candidates_attempted_witness :
    traceHasCreateFor "Task"
      (persistExec userModel
        [("name", JsVal.str "New User"),
         ("Tasks", JsVal.arr [JsVal.obj [("name", JsVal.str "T")]])]
        c10Store).trace = true ∧
    traceHasCreateFor "User"
      (persistExec taskModel
        [("name", JsVal.str "t"),
         ("User", JsVal.obj [("name", JsVal.str "New User")])]
        c10Store).trace = true :=
  ⟨C5_creation_candidates_attempted.1 userModel
    [("name", JsVal.str "New User"),
     ("Tasks", JsVal.arr [JsVal.obj [("name", JsVal.str "T")]])]
    c10Store tasksAssoc
    [JsVal.obj [("name", JsVal.str "T")]] [("name", JsVal.str "T")]
    (List.mem_cons_self _ _) rfl rfl rfl
    (List.mem_cons_self _ _) rfl rfl,
   C5_creation_candidates_attempted.2 taskModel
    [("name", JsVal.str "t"),
     ("User", JsVal.obj [("name", JsVal.str "New User")])]
    c10Store userAssoc [("name", JsVal.str "New User")]
    (List.mem_cons_self _ _) rfl rfl (List.cons_ne_nil _ _) rfl rfl⟩
